import Mathlib

/-!
Shallow embedding of the hub persistence layer of the repository
(`src/hub/config.py`, `src/hub/metrics.py`, `src/hub/registry.py`,
`src/hub/prompts.py`).

Python dictionaries are modelled as insertion-ordered association lists of
`String × JVal`; Python `dict[k] = v` is `dset`, `dict.get(k)` is `dget`.
Timestamps (`time.time()`, `datetime.now()`) are modelled as integers supplied
explicitly to each operation; ISO date strings are supplied as plain strings.
The local filesystem and the S3 bucket are association lists from path/key to
file content.  Raising an exception is modelled by returning `none` /
`Except.error`.
-/

/-- A JSON-like value, the content of the Python dictionaries the hub
components manipulate (`metrics.py` metrics record, `registry.py` registry
document). -/
inductive JVal where
  | str (s : String)
  | num (n : Int)
  | null
  | arr (elems : List JVal)
  | obj (fields : List (String × JVal))

/-- An insertion-ordered string-keyed dictionary, the model of a Python dict. -/
abbrev Jdict := List (String × JVal)

/-- Python `d.get(k)` / `d[k]` lookup: first binding for the key. -/
def dget (d : Jdict) (k : String) : Option JVal :=
  match d with
  | [] => none
  | (k', v) :: rest => if k' = k then some v else dget rest k

/-- Python `d[k] = v`: update in place if the key is present (dict keys are
unique), else append, preserving insertion order. -/
def dset (d : Jdict) (k : String) (v : JVal) : Jdict :=
  match d with
  | [] => [(k, v)]
  | (k', v') :: rest => if k' = k then (k, v) :: rest else (k', v') :: dset rest k v

/-- Python truthiness of a `JVal` (`if x:`): empty string, zero, `None`,
empty list and empty dict are falsy. -/
def truthy : JVal → Bool
  | .str s => s ≠ ""
  | .num n => n ≠ 0
  | .null => false
  | .arr l => !l.isEmpty
  | .obj d => !d.isEmpty

theorem dget_dset_self (d : Jdict) (k : String) (v : JVal) :
    dget (dset d k v) k = some v := by
  induction d with
  | nil => simp [dget, dset]
  | cons hd tl ih =>
    obtain ⟨k', v'⟩ := hd
    by_cases h : k' = k <;> simp [dget, dset, h, ih]

theorem dget_dset_ne (d : Jdict) (k k' : String) (v : JVal) (h : k' ≠ k) :
    dget (dset d k v) k' = dget d k' := by
  have hkk : ¬(k = k') := fun hh => h hh.symm
  induction d with
  | nil => simp only [dset, dget, if_neg hkk]
  | cons hd tl ih =>
    obtain ⟨k0, v0⟩ := hd
    by_cases h0 : k0 = k
    · subst h0
      simp only [dset, dget, if_pos rfl, if_neg hkk]
    · simp only [dset, dget, if_neg h0]
      by_cases h1 : k0 = k'
      · simp only [dget, if_pos h1]
      · simp only [dget, if_neg h1, ih]

/-! ## Configuration (`src/hub/config.py`) -/

/-- `HubConfig`: configuration for the hub (`config.py` lines 10–66).
The three S3 prefixes and the registry key are fixed literals in the source;
`use_s3`, `bucket`, `region` and `local_dir` come from environment variables. -/
structure HubConfig where
  use_s3 : Bool
  bucket : String
  region : String
  sessionsPrefix : String := "sessions"
  metricsPrefix : String := "metrics/"
  promptsPrefix : String := "system_prompts/"
  registry_key : String := "registry.json"
  local_dir : String := "./.agent_hub"
  prompt_cache_ttl_seconds : Int := 3600
  deriving DecidableEq, Repr

/-- `HubConfig.__post_init__` validation (`config.py` lines 41–50): raises
`ValueError` when `use_s3` is true and the bucket string is falsy (empty).
The directory-creation side effect (`mkdir`) has no observable effect on the
file maps modelled here (files are created on write). -/
def mkHubConfig (use_s3 : Bool) (bucket : String) (region : String)
    (local_dir : String) : Except String HubConfig :=
  if use_s3 ∧ bucket = "" then
    .error "AGENT_HUB_BUCKET must be set when USE_S3=true"
  else
    .ok { use_s3 := use_s3, bucket := bucket, region := region, local_dir := local_dir }

/-- `config.local_metrics_dir`: `local_dir / "metrics"`. -/
def HubConfig.localMetricsDir (cfg : HubConfig) : String :=
  cfg.local_dir ++ "/metrics"

/-- `config.local_prompts_dir`: `local_dir / "prompts"`. -/
def HubConfig.localPromptsDir (cfg : HubConfig) : String :=
  cfg.local_dir ++ "/prompts"

/-- C3: constructing a `HubConfig` with remote storage enabled (`use_s3` true)
and an empty bucket raises a configuration error; with remote disabled,
construction succeeds for every bucket value, including the empty string. -/
theorem hubConfig_validation (bucket region localDir : String) :
    (mkHubConfig true "" region localDir
      = .error "AGENT_HUB_BUCKET must be set when USE_S3=true")
    ∧ (mkHubConfig false bucket region localDir
      = .ok { use_s3 := false, bucket := bucket, region := region,
              local_dir := localDir }) := by
  constructor
  · simp [mkHubConfig]
  · simp [mkHubConfig]

/-! ## Metrics (`src/hub/metrics.py`) -/

/-- The in-memory metrics record built by `MetricsExporter.__init__`
(`metrics.py` lines 26–49): identity fields, a start timestamp, a null
completion timestamp, and three empty sub-dicts. -/
def initMetrics (agent_id run_id : String) (prompt_version : Option String)
    (startTime : Int) : Jdict :=
  [("agent_id", .str agent_id), ("run_id", .str run_id),
   ("prompt_version", match prompt_version with | some v => .str v | none => .null),
   ("started_at", .num startTime), ("completed_at", .null),
   ("timing", .obj []), ("stats", .obj []), ("custom", .obj [])]

/-- `self.metrics[cat][key] = value`: store into the sub-dict at top-level slot
`cat`; a `TypeError` (the slot no longer holds a dict) is modelled as `none`. -/
def dictSetIn (m : Jdict) (cat key : String) (value : JVal) : Option Jdict :=
  match dget m cat with
  | some (.obj sub) => some (dset m cat (.obj (dset sub key value)))
  | _ => none

/-- `MetricsExporter.set` (`metrics.py` lines 51–63): a category among
"timing", "stats", "custom" stores under `key` in that sub-mapping; any other
category string writes `key` at the top level of the metrics record. -/
def MetricsExporter.set (m : Jdict) (key : String) (value : JVal)
    (category : String) : Option Jdict :=
  if category = "timing" ∨ category = "stats" ∨ category = "custom" then
    dictSetIn m category key value
  else
    some (dset m key value)

/-- `MetricsExporter.set_timing` (`metrics.py` lines 65–67). -/
def MetricsExporter.set_timing (m : Jdict) (key : String) (value : JVal) :
    Option Jdict :=
  dictSetIn m "timing" key value

/-- `MetricsExporter.set_stats` (`metrics.py` lines 69–71). -/
def MetricsExporter.set_stats (m : Jdict) (key : String) (value : JVal) :
    Option Jdict :=
  dictSetIn m "stats" key value

/-- A sequence of `set_timing` (resp. `set_stats`) calls, threaded through the
sub-dict named `cat`. -/
def applyIn (cat : String) (m : Option Jdict) (kvs : List (String × JVal)) :
    Option Jdict :=
  kvs.foldl (fun acc kv => acc.bind (fun d => dictSetIn d cat kv.1 kv.2)) m

/-- `dset` folded over a list of key/value pairs. -/
def dsetAll (d : Jdict) (kvs : List (String × JVal)) : Jdict :=
  kvs.foldl (fun acc kv => dset acc kv.1 kv.2) d

/-- Appending one line to a text file opened with mode "a"
(`_queue_for_sync`, `metrics.py` lines 178–182): creates the file when absent. -/
def appendLine (fs : Jdict) (path line : String) : Jdict :=
  match dget fs path with
  | some (.str s) => dset fs path (.str (s ++ line ++ "\n"))
  | _ => dset fs path (.str (line ++ "\n"))

/-- The local path `_export_to_local` writes
(`local_metrics_dir/<date>/<run_id>.json`, `metrics.py` lines 165–176). -/
def metricsLocalPath (cfg : HubConfig) (run_id date : String) : String :=
  cfg.localMetricsDir ++ "/" ++ date ++ "/" ++ run_id ++ ".json"

/-- The S3 key `_export_to_s3` writes (`metrics.py` lines 146–163). -/
def metricsS3Key (cfg : HubConfig) (run_id date : String) : String :=
  cfg.metricsPrefix ++ date ++ "/" ++ run_id ++ ".json"

/-- The pending-sync queue file (`metrics.py` line 180). -/
def syncQueuePath (cfg : HubConfig) : String :=
  cfg.local_dir ++ "/sync_queue.txt"

/-- The outcome of `MetricsExporter.export`: the returned location, the final
in-memory record, the local filesystem, the S3 bucket, the `_exported` flag. -/
structure ExportOutcome where
  ret : String
  metrics : Jdict
  fs : Jdict
  remote : Jdict
  exported : Bool

/-- `MetricsExporter.export` (`metrics.py` lines 112–144).  `endTime` is
`datetime.now()` at the export call; `date` is that instant's `YYYY-MM-DD`
string; `s3ok` says whether the boto3 put in `_export_to_s3` succeeds or
raises.  Timestamps are integers, so the ISO-parse of `fromisoformat` is the
`.num` pattern match (a non-numeric timestamp raises, giving `none`); the
truthiness guard `metrics.get("started_at") and metrics.get("completed_at")`
is `truthy` of each slot. -/
def MetricsExporter.export (cfg : HubConfig) (run_id : String) (m : Jdict)
    (fs remote : Jdict) (endTime : Int) (date : String) (s3ok : Bool) :
    Option ExportOutcome :=
  let m1 := dset m "completed_at" (.num endTime)
  let withDuration : Option Jdict :=
    if truthy ((dget m1 "started_at").getD .null)
        ∧ truthy ((dget m1 "completed_at").getD .null) then
      match dget m1 "started_at", dget m1 "completed_at", dget m1 "timing" with
      | some (.num s), some (.num e), some (.obj t) =>
          some (dset m1 "timing" (.obj (dset t "total_runtime_seconds" (.num (e - s)))))
      | _, _, _ => none
    else some m1
  match withDuration with
  | none => none
  | some m2 =>
    if cfg.use_s3 ∧ s3ok then
      some ⟨metricsS3Key cfg run_id date, m2, fs,
            dset remote (metricsS3Key cfg run_id date) (.obj m2), true⟩
    else
      let fs1 := dset fs (metricsLocalPath cfg run_id date) (.obj m2)
      let fs2 := if cfg.use_s3 then
          appendLine fs1 (syncQueuePath cfg) (metricsLocalPath cfg run_id date)
        else fs1
      some ⟨metricsLocalPath cfg run_id date, m2, fs2, remote, true⟩

/-- The text content of a queue file slot: the string stored there, or the
empty string when the file is absent. -/
def queuedText : Option JVal → String
  | some (.str s) => s
  | _ => ""

theorem dget_appendLine_self (fs : Jdict) (p line : String) :
    dget (appendLine fs p line) p
      = some (.str (queuedText (dget fs p) ++ line ++ "\n")) := by
  unfold appendLine
  cases h : dget fs p with
  | none => simp [queuedText, dget_dset_self]
  | some v =>
    cases v <;> simp [queuedText, dget_dset_self]

theorem dget_appendLine_ne (fs : Jdict) (p line k : String) (h : k ≠ p) :
    dget (appendLine fs p line) k = dget fs k := by
  unfold appendLine
  cases hv : dget fs p with
  | none => exact dget_dset_ne _ _ _ _ h
  | some v => cases v <;> exact dget_dset_ne _ _ _ _ h

theorem string_append_ne_of_getLast_ne (a b s1 s2 : String) (c1 c2 : Char)
    (h1 : s1.data.getLast? = some c1) (h2 : s2.data.getLast? = some c2)
    (hne : c1 ≠ c2) : a ++ s1 ≠ b ++ s2 := by
  intro h
  rw [String.congr_append, String.congr_append] at h
  have hd : a.data ++ s1.data = b.data ++ s2.data := by
    injection h
  have n1 : s1.data ≠ [] := by
    intro hh
    rw [hh] at h1
    simp [List.getLast?] at h1
  have n2 : s2.data ≠ [] := by
    intro hh
    rw [hh] at h2
    simp [List.getLast?] at h2
  have e1 : (a.data ++ s1.data).getLast? = some c1 := by
    rw [List.getLast?_append_of_ne_nil _ n1]
    exact h1
  have e2 : (b.data ++ s2.data).getLast? = some c2 := by
    rw [List.getLast?_append_of_ne_nil _ n2]
    exact h2
  rw [hd, e2] at e1
  exact hne (Option.some.inj e1).symm

theorem syncQueuePath_ne_localPath (cfg : HubConfig) (run_id date : String) :
    syncQueuePath cfg ≠ metricsLocalPath cfg run_id date := by
  unfold syncQueuePath metricsLocalPath
  exact string_append_ne_of_getLast_ne _ _ _ _ 't' 'n' (by decide) (by decide)
    (by decide)

/-- Folding `set_timing` / `set_stats` calls over a well-formed record: the
named sub-dict accumulates the pairs, every other top-level key is untouched. -/
theorem applyIn_ok (cat : String) (kvs : List (String × JVal)) :
    ∀ (m sub : Jdict), dget m cat = some (.obj sub) →
    ∃ m', applyIn cat (some m) kvs = some m'
      ∧ dget m' cat = some (.obj (dsetAll sub kvs))
      ∧ ∀ k, k ≠ cat → dget m' k = dget m k := by
  induction kvs with
  | nil =>
    intro m sub h
    exact ⟨m, rfl, by simpa [dsetAll] using h, fun k _ => rfl⟩
  | cons kv rest ih =>
    intro m sub h
    have hstep : dictSetIn m cat kv.1 kv.2
        = some (dset m cat (.obj (dset sub kv.1 kv.2))) := by
      simp [dictSetIn, h]
    have h2 : dget (dset m cat (.obj (dset sub kv.1 kv.2))) cat
        = some (.obj (dset sub kv.1 kv.2)) := dget_dset_self ..
    obtain ⟨m', hm', hcat, hoth⟩ :=
      ih (dset m cat (.obj (dset sub kv.1 kv.2))) (dset sub kv.1 kv.2) h2
    refine ⟨m', ?_, ?_, ?_⟩
    · simpa [applyIn, hstep] using hm'
    · simpa [dsetAll] using hcat
    · intro k hk
      rw [hoth k hk, dget_dset_ne _ _ _ _ hk]

/-- The final in-memory record `export` persists when it takes the local
branch: completion timestamp set, then `total_runtime_seconds` stored in the
timing sub-dict. -/
def exportFinalMetrics (m : Jdict) (tsub : Jdict) (t0 t1 : Int) : Jdict :=
  dset (dset m "completed_at" (.num t1)) "timing"
    (.obj (dset tsub "total_runtime_seconds" (.num (t1 - t0))))

/-- `export` on the local branch (remote disabled, or the remote write
raises): the outcome is the local write plus, when remote was intended, the
pending-sync queue append. -/
theorem export_local_spec (cfg : HubConfig) (run_id date : String)
    (m fs remote : Jdict) (t0 t1 : Int) (tsub : Jdict) (s3ok : Bool)
    (hstart : dget m "started_at" = some (.num t0))
    (htiming : dget m "timing" = some (.obj tsub))
    (ht0 : t0 ≠ 0) (ht1 : t1 ≠ 0)
    (hs3 : ¬(cfg.use_s3 = true ∧ s3ok = true)) :
    MetricsExporter.export cfg run_id m fs remote t1 date s3ok
      = some ⟨metricsLocalPath cfg run_id date,
              exportFinalMetrics m tsub t0 t1,
              (if cfg.use_s3 then
                  appendLine (dset fs (metricsLocalPath cfg run_id date)
                      (.obj (exportFinalMetrics m tsub t0 t1)))
                    (syncQueuePath cfg) (metricsLocalPath cfg run_id date)
                else
                  dset fs (metricsLocalPath cfg run_id date)
                    (.obj (exportFinalMetrics m tsub t0 t1))),
              remote, true⟩ := by
  unfold MetricsExporter.export
  have h1 : dget (dset m "completed_at" (.num t1)) "started_at"
      = some (.num t0) := by
    rw [dget_dset_ne _ _ _ _ (by decide)]
    exact hstart
  have h2 : dget (dset m "completed_at" (.num t1)) "completed_at"
      = some (.num t1) := dget_dset_self ..
  have h3 : dget (dset m "completed_at" (.num t1)) "timing"
      = some (.obj tsub) := by
    rw [dget_dset_ne _ _ _ _ (by decide)]
    exact htiming
  simp only [h1, h2, h3, Option.getD_some]
  rw [if_pos ⟨by simp [truthy, ht0], by simp [truthy, ht1]⟩]
  simp only [exportFinalMetrics]
  rw [if_neg hs3]

/-- A concrete remote-enabled configuration for concrete evaluations. -/
def cfgS3 : HubConfig := { use_s3 := true, bucket := "b", region := "us-east-1" }

/-- A concrete local-only configuration for concrete evaluations. -/
def cfgLocal : HubConfig := { use_s3 := false, bucket := "", region := "us-east-1" }

/-- C1 counterexample: with remote storage enabled and the remote write
succeeding, `export()` returns the S3 key and performs no local write at all —
afterwards the local metrics file does not exist, refuting "this local write
happens in every case, including when remote storage is enabled and the remote
write succeeds". -/
theorem metrics_export_s3_success_skips_local :
    ∃ out, MetricsExporter.export cfgS3 "r" (initMetrics "a" "r" none 1) [] []
        2 "2024-12-15" true = some out
      ∧ out.ret = metricsS3Key cfgS3 "r" "2024-12-15"
      ∧ out.fs = []
      ∧ dget out.fs (metricsLocalPath cfgS3 "r" "2024-12-15") = none := by
  refine ⟨_, rfl, rfl, rfl, rfl⟩

/-- C1 (amended): the durable local write happens whenever remote storage is
disabled or the remote write fails: after `export()` the local metrics file at
`local_metrics_dir/<date>/<run_id>.json` exists and holds the final record —
the key/value pairs previously set via `set_timing`/`set_stats` (the timing
sub-dict additionally gaining `total_runtime_seconds`), with non-null
`started_at`/`completed_at` and `completed_at ≥ started_at`.  (When remote is
enabled and the remote write succeeds, `export()` returns the S3 key and
writes nothing locally.) -/
theorem metrics_export_local_durability
    (cfg : HubConfig) (agent_id run_id date : String) (pv : Option String)
    (t0 t1 : Int) (ts ss : List (String × JVal)) (fs remote : Jdict)
    (s3ok : Bool)
    (hs3 : ¬(cfg.use_s3 = true ∧ s3ok = true))
    (ht0 : t0 ≠ 0) (ht1 : t1 ≠ 0) (hle : t0 ≤ t1) :
    ∃ m out,
      applyIn "stats" (applyIn "timing" (some (initMetrics agent_id run_id pv t0)) ts) ss
        = some m
      ∧ MetricsExporter.export cfg run_id m fs remote t1 date s3ok = some out
      ∧ out.ret = metricsLocalPath cfg run_id date
      ∧ dget out.fs (metricsLocalPath cfg run_id date) = some (.obj out.metrics)
      ∧ dget out.metrics "started_at" = some (.num t0)
      ∧ dget out.metrics "completed_at" = some (.num t1)
      ∧ t0 ≤ t1
      ∧ dget out.metrics "timing"
          = some (.obj (dset (dsetAll [] ts) "total_runtime_seconds" (.num (t1 - t0))))
      ∧ dget out.metrics "stats" = some (.obj (dsetAll [] ss)) := by
  have hm0t : dget (initMetrics agent_id run_id pv t0) "timing"
      = some (.obj []) := by
    simp [initMetrics, dget]
  obtain ⟨m1, hm1, hm1t, hm1o⟩ :=
    applyIn_ok "timing" ts (initMetrics agent_id run_id pv t0) [] hm0t
  have hm1s : dget m1 "stats" = some (.obj []) := by
    rw [hm1o "stats" (by decide)]
    simp [initMetrics, dget]
  obtain ⟨m2, hm2, hm2s, hm2o⟩ := applyIn_ok "stats" ss m1 [] hm1s
  have hm2start : dget m2 "started_at" = some (.num t0) := by
    rw [hm2o _ (by decide), hm1o _ (by decide)]
    simp [initMetrics, dget]
  have hm2t : dget m2 "timing" = some (.obj (dsetAll [] ts)) := by
    rw [hm2o _ (by decide)]
    exact hm1t
  have hexp := export_local_spec cfg run_id date m2 fs remote t0 t1
    (dsetAll [] ts) s3ok hm2start hm2t ht0 ht1 hs3
  refine ⟨m2, _, ?_, hexp, rfl, ?_, ?_, ?_, hle, ?_, ?_⟩
  · rw [hm1]
    exact hm2
  · show dget (if cfg.use_s3 then _ else _) _ = _
    by_cases hu : cfg.use_s3 = true
    · rw [if_pos hu,
        dget_appendLine_ne _ _ _ _ (syncQueuePath_ne_localPath cfg run_id date).symm]
      exact dget_dset_self ..
    · rw [if_neg hu]
      exact dget_dset_self ..
  · show dget (exportFinalMetrics m2 (dsetAll [] ts) t0 t1) "started_at" = _
    unfold exportFinalMetrics
    rw [dget_dset_ne _ _ _ _ (by decide), dget_dset_ne _ _ _ _ (by decide)]
    exact hm2start
  · show dget (exportFinalMetrics m2 (dsetAll [] ts) t0 t1) "completed_at" = _
    unfold exportFinalMetrics
    rw [dget_dset_ne _ _ _ _ (by decide)]
    exact dget_dset_self ..
  · show dget (exportFinalMetrics m2 (dsetAll [] ts) t0 t1) "timing" = _
    unfold exportFinalMetrics
    exact dget_dset_self ..
  · show dget (exportFinalMetrics m2 (dsetAll [] ts) t0 t1) "stats" = _
    unfold exportFinalMetrics
    rw [dget_dset_ne _ _ _ _ (by decide), dget_dset_ne _ _ _ _ (by decide)]
    exact hm2s

/-- C2: with remote storage enabled, if the remote write raises during
`export()` the error is not propagated: `export()` returns the local file
path, the local metrics file is written, the remote bucket is untouched, and
that local path is appended as a line to the pending-sync queue file
`local_dir/sync_queue.txt`. -/
theorem metrics_export_remote_failure_fallback
    (cfg : HubConfig) (run_id date : String) (m fs remote : Jdict)
    (t0 t1 : Int) (tsub : Jdict)
    (hs3 : cfg.use_s3 = true)
    (hstart : dget m "started_at" = some (.num t0))
    (htiming : dget m "timing" = some (.obj tsub))
    (ht0 : t0 ≠ 0) (ht1 : t1 ≠ 0) :
    ∃ out, MetricsExporter.export cfg run_id m fs remote t1 date false = some out
      ∧ out.ret = metricsLocalPath cfg run_id date
      ∧ dget out.fs (metricsLocalPath cfg run_id date) = some (.obj out.metrics)
      ∧ dget out.fs (syncQueuePath cfg)
          = some (.str (queuedText (dget fs (syncQueuePath cfg))
              ++ metricsLocalPath cfg run_id date ++ "\n"))
      ∧ out.remote = remote := by
  have hexp := export_local_spec cfg run_id date m fs remote t0 t1 tsub false
    hstart htiming ht0 ht1 (by simp)
  refine ⟨_, hexp, rfl, ?_, ?_, rfl⟩
  · show dget (if cfg.use_s3 then _ else _) _ = _
    rw [if_pos hs3,
      dget_appendLine_ne _ _ _ _ (syncQueuePath_ne_localPath cfg run_id date).symm]
    exact dget_dset_self ..
  · show dget (if cfg.use_s3 then _ else _) _ = _
    rw [if_pos hs3, dget_appendLine_self,
      dget_dset_ne _ _ _ _ (syncQueuePath_ne_localPath cfg run_id date)]

/-- C2 witness: a concrete run of the failing-remote export. -/
theorem metrics_export_remote_failure_fallback_witness :
    ∃ out, MetricsExporter.export cfgS3 "r" (initMetrics "a" "r" none 1) [] []
        2 "2024-12-15" false = some out
      ∧ out.ret = metricsLocalPath cfgS3 "r" "2024-12-15"
      ∧ dget out.fs (metricsLocalPath cfgS3 "r" "2024-12-15")
          = some (.obj out.metrics)
      ∧ dget out.fs (syncQueuePath cfgS3)
          = some (.str (queuedText (dget [] (syncQueuePath cfgS3))
              ++ metricsLocalPath cfgS3 "r" "2024-12-15" ++ "\n"))
      ∧ out.remote = [] :=
  metrics_export_remote_failure_fallback cfgS3 "r" "2024-12-15"
    (initMetrics "a" "r" none 1) [] [] 1 2 [] rfl (by simp [initMetrics, dget])
    (by simp [initMetrics, dget]) (by decide) (by decide)

/-- C10: `MetricsExporter.set` with a category among "timing", "stats",
"custom" stores the value under the key in that sub-mapping (last-write-wins);
with every other category string it does not raise and instead writes the
key/value at the top level of the metrics record, so a key such as "agent_id"
silently overwrites the record's identity/timestamp fields. -/
theorem metricsSet_spec (m : Jdict) (key : String) (value : JVal)
    (category : String) :
    (∀ sub, (category = "timing" ∨ category = "stats" ∨ category = "custom") →
        dget m category = some (.obj sub) →
        MetricsExporter.set m key value category
          = some (dset m category (.obj (dset sub key value))))
    ∧ (¬(category = "timing" ∨ category = "stats" ∨ category = "custom") →
        MetricsExporter.set m key value category = some (dset m key value)
        ∧ dget (dset m key value) key = some value) := by
  constructor
  · intro sub hcat hsub
    rw [MetricsExporter.set, if_pos hcat]
    simp [dictSetIn, hsub]
  · intro hcat
    exact ⟨by rw [MetricsExporter.set, if_neg hcat], dget_dset_self ..⟩

/-- C10 witness: a timing set lands in the timing sub-dict; a set with
category "other" and key "agent_id" overwrites the top-level identity field. -/
theorem metricsSet_spec_witness :
    (MetricsExporter.set (initMetrics "a" "r" none 1) "lat" (.num 7) "timing"
      = some (dset (initMetrics "a" "r" none 1) "timing"
          (.obj (dset [] "lat" (.num 7)))))
    ∧ (MetricsExporter.set (initMetrics "a" "r" none 1) "agent_id" (.str "x") "other"
        = some (dset (initMetrics "a" "r" none 1) "agent_id" (.str "x"))
      ∧ dget (dset (initMetrics "a" "r" none 1) "agent_id" (.str "x")) "agent_id"
          = some (.str "x")) :=
  ⟨(metricsSet_spec (initMetrics "a" "r" none 1) "lat" (.num 7) "timing").1 []
      (Or.inl rfl) (by simp [initMetrics, dget]),
   (metricsSet_spec (initMetrics "a" "r" none 1) "agent_id" (.str "x") "other").2
      (by decide)⟩

/-- C1 witness: a concrete local-only export after one `set_timing` and one
`set_stats` call. -/
theorem metrics_export_local_durability_witness :
    ∃ m out,
      applyIn "stats" (applyIn "timing" (some (initMetrics "a" "r" none 1))
          [("t", .num 5)]) [("s", .str "ok")] = some m
      ∧ MetricsExporter.export cfgLocal "r" m [] [] 2 "2024-12-15" false = some out
      ∧ out.ret = metricsLocalPath cfgLocal "r" "2024-12-15"
      ∧ dget out.fs (metricsLocalPath cfgLocal "r" "2024-12-15")
          = some (.obj out.metrics)
      ∧ dget out.metrics "started_at" = some (.num 1)
      ∧ dget out.metrics "completed_at" = some (.num 2)
      ∧ (1 : Int) ≤ 2
      ∧ dget out.metrics "timing"
          = some (.obj (dset (dsetAll [] [("t", .num 5)]) "total_runtime_seconds"
              (.num (2 - 1))))
      ∧ dget out.metrics "stats" = some (.obj (dsetAll [] [("s", .str "ok")])) :=
  metrics_export_local_durability cfgLocal "a" "r" "2024-12-15" none 1 2
    [("t", .num 5)] [("s", .str "ok")] [] [] false (by decide) (by decide)
    (by decide) (by decide)

/-! ## Agent registry (`src/hub/registry.py`) -/

/-- The freshly initialized registry document of `_load_registry`
(`registry.py` line 184): `{"agents": {}, "created_at": now}`. -/
def emptyRegistry (now : Int) : Jdict :=
  [("agents", .obj []), ("created_at", .num now)]

/-- Result of `AgentRegistry.register`: the returned entry, the registry
document afterwards, and whether `_save_registry` ran. -/
structure RegisterResult where
  entry : JVal
  doc : Jdict
  saved : Bool

/-- `AgentRegistry.register` (`registry.py` lines 37–87) as a function of the
loaded registry document.  `None`/empty arguments are falsy, so only truthy
`description`/`tags`/`system_prompt_key` are merged; an existing truthy entry
with `update_if_exists=False` is returned unchanged with no save.
`_save_registry` stamps the document's `updated_at` before writing
(`registry.py` line 189).  A `none` result models a raised exception (a
malformed document whose entry slots are not dicts). -/
def AgentRegistry.register (doc : Jdict) (agent_id : String)
    (description : Option String) (tags : Option (List String))
    (system_prompt_key : Option String) (update_if_exists : Bool)
    (now : Int) : Option RegisterResult :=
  match dget doc "agents" with
  | some (.obj agents) =>
    let existing := dget agents agent_id
    if truthy (existing.getD .null) ∧ update_if_exists = false then
      some ⟨existing.getD .null, doc, false⟩
    else
      let entryStart : Option Jdict :=
        match existing with
        | some (.obj e) =>
            if e.isEmpty then
              some [("agent_id", .str agent_id), ("created_at", .num now)]
            else some e
        | some v =>
            if truthy v then none
            else some [("agent_id", .str agent_id), ("created_at", .num now)]
        | none => some [("agent_id", .str agent_id), ("created_at", .num now)]
      match entryStart with
      | none => none
      | some e0 =>
        let e1 := dset e0 "updated_at" (.num now)
        let e2 := match description with
          | some d => if d ≠ "" then dset e1 "description" (.str d) else e1
          | none => e1
        let e3 := match tags with
          | some tg => if tg ≠ [] then dset e2 "tags" (.arr (tg.map .str)) else e2
          | none => e2
        let e4 := match system_prompt_key with
          | some k => if k ≠ "" then dset e3 "system_prompt_key" (.str k) else e3
          | none => e3
        let e5 := if (dget e4 "system_prompt_key").isNone then
            dset e4 "system_prompt_key"
              (.str ("system_prompts/" ++ agent_id ++ "/current.txt"))
          else e4
        let agents2 := dset agents agent_id (.obj e5)
        some ⟨.obj e5, dset (dset doc "agents" (.obj agents2)) "updated_at" (.num now),
              true⟩
  | _ => none

/-- Result of `AgentRegistry.record_run`: the registry document afterwards and
whether `_save_registry` ran. -/
structure RecordRunResult where
  doc : Jdict
  saved : Bool

/-- `AgentRegistry.record_run` (`registry.py` lines 126–145): silently no-ops
when the agent's entry is missing or falsy; otherwise initializes `run_stats`
to zeros when absent, increments `total_runs` and (on success)
`successful_runs`, stamps `last_run_at`/`last_run_id` and saves.  A `none`
result models a raised exception (an entry or its `run_stats` that is not the
dict shape this component writes). -/
def AgentRegistry.record_run (doc : Jdict) (agent_id run_id : String)
    (success : Bool) (now : Int) : Option RecordRunResult :=
  match dget doc "agents" with
  | some (.obj agents) =>
    match dget agents agent_id with
    | none => some ⟨doc, false⟩
    | some (.obj agent) =>
      if agent.isEmpty then some ⟨doc, false⟩
      else
        let agent1 := if (dget agent "run_stats").isNone then
            dset agent "run_stats"
              (.obj [("total_runs", .num 0), ("successful_runs", .num 0)])
          else agent
        match dget agent1 "run_stats" with
        | some (.obj rs) =>
          match dget rs "total_runs", dget rs "successful_runs" with
          | some (.num tr), some (.num sr) =>
            let rs1 := dset rs "total_runs" (.num (tr + 1))
            let rs2 := if success then
                dset rs1 "successful_runs" (.num (sr + 1))
              else rs1
            let agent2 := dset agent1 "run_stats" (.obj rs2)
            let agent3 := dset (dset agent2 "last_run_at" (.num now))
              "last_run_id" (.str run_id)
            let agents2 := dset agents agent_id (.obj agent3)
            some ⟨dset (dset doc "agents" (.obj agents2)) "updated_at" (.num now),
                  true⟩
          | _, _ => none
        | _ => none
    | some v => if truthy v then none else some ⟨doc, false⟩
  | _ => none

/-- The run statistics `(total_runs, successful_runs)` of an agent's entry;
an entry that has never recorded a run (`run_stats` absent) has zero of each. -/
def entryStats (doc : Jdict) (agent_id : String) : Option (Int × Int) :=
  match dget doc "agents" with
  | some (.obj agents) =>
    match dget agents agent_id with
    | some (.obj agent) =>
      match dget agent "run_stats" with
      | some (.obj rs) =>
        match dget rs "total_runs", dget rs "successful_runs" with
        | some (.num tr), some (.num sr) => some (tr, sr)
        | _, _ => none
      | none => some (0, 0)
      | _ => none
    | _ => none
  | _ => none

/-- A sequence of `record_run` calls on one agent, threading the document. -/
def foldRuns (doc : Jdict) (agent_id : String) (runs : List (String × Bool))
    (now : Int) : Option Jdict :=
  match runs with
  | [] => some doc
  | r :: rest =>
    match AgentRegistry.record_run doc agent_id r.1 r.2 now with
    | some res => foldRuns res.doc agent_id rest now
    | none => none

theorem dset_ne_nil (d : Jdict) (k : String) (v : JVal) : dset d k v ≠ [] := by
  cases d with
  | nil => simp [dset]
  | cons hd tl =>
    obtain ⟨k0, v0⟩ := hd
    by_cases h : k0 = k <;> simp [dset, h]

/-- The run-stats dict after one `record_run`: `total_runs` bumped, and
`successful_runs` bumped when the run succeeded. -/
def bumpStats (rsX : Jdict) (success : Bool) (tr sr : Int) : Jdict :=
  if success then
    dset (dset rsX "total_runs" (.num (tr + 1))) "successful_runs"
      (.num (sr + 1))
  else dset rsX "total_runs" (.num (tr + 1))

/-- The agent entry after one `record_run`: bumped stats stored back, run
stamps appended. -/
def bumpedAgent (agent1 rsX : Jdict) (rid : String) (success : Bool)
    (now tr sr : Int) : Jdict :=
  dset (dset (dset agent1 "run_stats" (.obj (bumpStats rsX success tr sr)))
    "last_run_at" (.num now)) "last_run_id" (.str rid)

/-- The document `record_run` saves, spelled out: the bumped entry stored
back under the agent id, `updated_at` stamped by `_save_registry`. -/
def recordRunDoc (doc agents agent1 rsX : Jdict) (aid rid : String)
    (success : Bool) (now tr sr : Int) : Jdict :=
  dset (dset doc "agents"
      (.obj (dset agents aid (.obj (bumpedAgent agent1 rsX rid success now tr sr)))))
    "updated_at" (.num now)

theorem record_run_out (doc agents agent : Jdict) (aid rid : String)
    (success : Bool) (now tr sr : Int) (agent1 rsX : Jdict)
    (hag : dget doc "agents" = some (.obj agents))
    (hentry : dget agents aid = some (.obj agent))
    (hie : agent.isEmpty = false)
    (hA1 : (if (dget agent "run_stats").isNone then
        dset agent "run_stats"
          (.obj [("total_runs", .num 0), ("successful_runs", .num 0)])
      else agent) = agent1)
    (hrsX : dget agent1 "run_stats" = some (.obj rsX))
    (htr : dget rsX "total_runs" = some (.num tr))
    (hsr : dget rsX "successful_runs" = some (.num sr)) :
    AgentRegistry.record_run doc aid rid success now
      = some ⟨recordRunDoc doc agents agent1 rsX aid rid success now tr sr, true⟩ := by
  simp [AgentRegistry.record_run, recordRunDoc, bumpedAgent, bumpStats, hag,
    hentry, hie, hA1, hrsX, htr, hsr]

/-- One `record_run` on a registered, truthy entry: the call saves, and the
run counters advance by one total run and one conditional successful run. -/
theorem record_run_step (doc agents agent : Jdict) (aid rid : String)
    (success : Bool) (now tr sr : Int)
    (hag : dget doc "agents" = some (.obj agents))
    (hentry : dget agents aid = some (.obj agent))
    (hne : agent ≠ [])
    (hrs : (dget agent "run_stats" = none ∧ tr = 0 ∧ sr = 0)
      ∨ (∃ rs, dget agent "run_stats" = some (.obj rs)
          ∧ dget rs "total_runs" = some (.num tr)
          ∧ dget rs "successful_runs" = some (.num sr))) :
    ∃ doc' agents' agent' rs',
      AgentRegistry.record_run doc aid rid success now = some ⟨doc', true⟩
      ∧ dget doc' "agents" = some (.obj agents')
      ∧ dget agents' aid = some (.obj agent')
      ∧ agent' ≠ []
      ∧ dget agent' "run_stats" = some (.obj rs')
      ∧ dget rs' "total_runs" = some (.num (tr + 1))
      ∧ dget rs' "successful_runs"
          = some (.num (sr + (if success then 1 else 0))) := by
  have hie : agent.isEmpty = false := by
    cases agent with
    | nil => exact absurd rfl hne
    | cons a l => rfl
  obtain ⟨agent1, rsX, hA1, hrsX, htr, hsr⟩ :
      ∃ agent1 rsX, (if (dget agent "run_stats").isNone then
          dset agent "run_stats"
            (.obj [("total_runs", .num 0), ("successful_runs", .num 0)])
        else agent) = agent1
        ∧ dget agent1 "run_stats" = some (.obj rsX)
        ∧ dget rsX "total_runs" = some (.num tr)
        ∧ dget rsX "successful_runs" = some (.num sr) := by
    rcases hrs with ⟨habs, htr0, hsr0⟩ | ⟨rs, hpres, htr1, hsr1⟩
    · subst htr0; subst hsr0
      refine ⟨dset agent "run_stats"
          (.obj [("total_runs", .num 0), ("successful_runs", .num 0)]),
        [("total_runs", .num 0), ("successful_runs", .num 0)], ?_,
        dget_dset_self .., rfl, rfl⟩
      rw [habs]
      rfl
    · refine ⟨agent, rs, ?_, hpres, htr1, hsr1⟩
      rw [hpres]
      rfl
  have hout := record_run_out doc agents agent aid rid success now tr sr
    agent1 rsX hag hentry hie hA1 hrsX htr hsr
  refine ⟨recordRunDoc doc agents agent1 rsX aid rid success now tr sr,
    dset agents aid (.obj (bumpedAgent agent1 rsX rid success now tr sr)),
    bumpedAgent agent1 rsX rid success now tr sr,
    bumpStats rsX success tr sr, hout, ?_, ?_, ?_, ?_, ?_, ?_⟩
  · unfold recordRunDoc
    rw [dget_dset_ne _ _ _ _ (by decide)]
    exact dget_dset_self ..
  · exact dget_dset_self ..
  · unfold bumpedAgent
    exact dset_ne_nil _ _ _
  · unfold bumpedAgent
    rw [dget_dset_ne _ _ _ _ (by decide), dget_dset_ne _ _ _ _ (by decide)]
    exact dget_dset_self ..
  · unfold bumpStats
    cases success with
    | true =>
      rw [if_pos rfl, dget_dset_ne _ _ _ _ (by decide)]
      exact dget_dset_self ..
    | false =>
      rw [if_neg (by decide)]
      exact dget_dset_self ..
  · unfold bumpStats
    cases success with
    | true =>
      rw [if_pos rfl, if_pos rfl]
      exact dget_dset_self ..
    | false =>
      rw [if_neg (by decide), if_neg (by decide),
        dget_dset_ne _ _ _ _ (by decide), hsr]
      simp

theorem foldRuns_accum (runs : List (String × Bool)) :
    ∀ (doc agents agent : Jdict) (aid : String) (now tr sr : Int),
      dget doc "agents" = some (.obj agents) →
      dget agents aid = some (.obj agent) →
      agent ≠ [] →
      ((dget agent "run_stats" = none ∧ tr = 0 ∧ sr = 0)
        ∨ (∃ rs, dget agent "run_stats" = some (.obj rs)
            ∧ dget rs "total_runs" = some (.num tr)
            ∧ dget rs "successful_runs" = some (.num sr))) →
      ∃ doc', foldRuns doc aid runs now = some doc'
        ∧ entryStats doc' aid
            = some (tr + runs.length, sr + (runs.filter (fun r => r.2)).length) := by
  induction runs with
  | nil =>
    intro doc agents agent aid now tr sr hag hentry hne hrs
    refine ⟨doc, rfl, ?_⟩
    rcases hrs with ⟨habs, htr, hsr⟩ | ⟨rs, hpres, htr, hsr⟩
    · subst htr; subst hsr
      simp [entryStats, hag, hentry, habs]
    · simp [entryStats, hag, hentry, hpres, htr, hsr]
  | cons r rest ih =>
    intro doc agents agent aid now tr sr hag hentry hne hrs
    obtain ⟨doc1, agents1, agent1, rs1, hstep, hag1, hentry1, hne1, hrs1, htr1, hsr1⟩ :=
      record_run_step doc agents agent aid r.1 r.2 now tr sr hag hentry hne hrs
    obtain ⟨doc2, hfold, hstats⟩ := ih doc1 agents1 agent1 aid now (tr + 1)
      (sr + (if r.2 then 1 else 0)) hag1 hentry1 hne1
      (Or.inr ⟨rs1, hrs1, htr1, hsr1⟩)
    refine ⟨doc2, ?_, ?_⟩
    · show foldRuns doc aid (r :: rest) now = some doc2
      unfold foldRuns
      rw [hstep]
      exact hfold
    · rw [hstats]
      have hpair : (tr + 1 + ((rest.length : Nat) : Int),
          (sr + (if r.2 = true then (1:Int) else 0))
            + (((rest.filter (fun x => x.2)).length : Nat) : Int))
          = (tr + (((r :: rest).length : Nat) : Int),
            sr + ((((r :: rest).filter (fun x => x.2)).length : Nat) : Int)) := by
        cases hr : r.2 with
        | true =>
          simp [List.filter_cons, hr]
          constructor <;> ring
        | false =>
          simp [List.filter_cons, hr]
          ring
      rw [hpair]

/-- C4: for a registered agent entry starting from zero prior runs, after any
sequence of `record_run` calls `total_runs` equals the number of calls and
`successful_runs` equals the number of calls with `success=True`, so
`successful_runs ≤ total_runs` always holds. -/
theorem registry_run_accounting (doc agents agent : Jdict) (aid : String)
    (runs : List (String × Bool)) (now : Int)
    (hag : dget doc "agents" = some (.obj agents))
    (hentry : dget agents aid = some (.obj agent))
    (hne : agent ≠ [])
    (hz : dget agent "run_stats" = none) :
    ∃ doc', foldRuns doc aid runs now = some doc'
      ∧ entryStats doc' aid
          = some ((runs.length : Int), ((runs.filter (fun r => r.2)).length : Int))
      ∧ ((runs.filter (fun r => r.2)).length : Int) ≤ (runs.length : Int) := by
  obtain ⟨doc', h1, h2⟩ := foldRuns_accum runs doc agents agent aid now 0 0
    hag hentry hne (Or.inl ⟨hz, rfl, rfl⟩)
  refine ⟨doc', h1, ?_, ?_⟩
  · simpa using h2
  · exact_mod_cast List.length_filter_le _ _

/-- C4 witness: three runs (success, failure, success) on an agent with zero
prior runs yield `total_runs=3`, `successful_runs=2`. -/
theorem registry_run_accounting_witness :
    ∃ doc', foldRuns [("agents", .obj [("a", .obj [("agent_id", .str "a")])]),
        ("created_at", .num 0)] "a"
        [("r1", true), ("r2", false), ("r3", true)] 7 = some doc'
      ∧ entryStats doc' "a" = some ((3 : Int), (2 : Int))
      ∧ ((2 : Int) ≤ (3 : Int)) :=
  registry_run_accounting
    [("agents", .obj [("a", .obj [("agent_id", .str "a")])]), ("created_at", .num 0)]
    [("a", .obj [("agent_id", .str "a")])] [("agent_id", .str "a")] "a"
    [("r1", true), ("r2", false), ("r3", true)] 7 rfl rfl
    (List.cons_ne_nil _ _) rfl

/-- C8: `record_run` for an agent id with no entry in the registry document
does not raise, creates no entry, leaves the document unchanged and performs
no save. -/
theorem record_run_unregistered_noop (doc agents : Jdict) (aid rid : String)
    (success : Bool) (now : Int)
    (hag : dget doc "agents" = some (.obj agents))
    (habsent : dget agents aid = none) :
    AgentRegistry.record_run doc aid rid success now = some ⟨doc, false⟩ := by
  simp [AgentRegistry.record_run, hag, habsent]

/-- C8 witness: a run recorded for "never-registered" on a fresh registry is
accepted and changes nothing. -/
theorem record_run_unregistered_noop_witness :
    AgentRegistry.record_run (emptyRegistry 0) "never-registered" "r1" true 5
      = some ⟨emptyRegistry 0, false⟩ :=
  record_run_unregistered_noop (emptyRegistry 0) [] "never-registered" "r1"
    true 5 rfl rfl

/-- C5: `register` is idempotent when `update_if_exists` is false: for an
agent id already present (with a truthy entry), the call returns the existing
entry unchanged, leaves the document untouched and performs no save; the same
call with `update_if_exists=True` updates the description field. -/
theorem register_idempotent (doc agents entry : Jdict) (aid : String)
    (description : Option String) (tags : Option (List String))
    (spk : Option String) (now : Int)
    (hag : dget doc "agents" = some (.obj agents))
    (hentry : dget agents aid = some (.obj entry))
    (hne : entry ≠ []) :
    AgentRegistry.register doc aid description tags spk false now
      = some ⟨.obj entry, doc, false⟩
    ∧ (∀ d, d ≠ "" →
        ∃ e' agents' doc',
          AgentRegistry.register doc aid (some d) none none true now
            = some ⟨.obj e', doc', true⟩
          ∧ dget e' "description" = some (.str d)
          ∧ dget doc' "agents" = some (.obj agents')
          ∧ dget agents' aid = some (.obj e')) := by
  have hie : entry.isEmpty = false := by
    cases entry with
    | nil => exact absurd rfl hne
    | cons a l => rfl
  constructor
  · simp [AgentRegistry.register, hag, hentry, truthy, hie]
  · intro d hd
    by_cases hspk : (dget (dset (dset entry "updated_at" (.num now))
        "description" (.str d)) "system_prompt_key").isNone = true
    · refine ⟨dset (dset (dset entry "updated_at" (.num now))
          "description" (.str d)) "system_prompt_key"
          (.str ("system_prompts/" ++ aid ++ "/current.txt")),
        dset agents aid (.obj (dset (dset (dset entry "updated_at" (.num now))
          "description" (.str d)) "system_prompt_key"
          (.str ("system_prompts/" ++ aid ++ "/current.txt")))),
        dset (dset doc "agents" (.obj (dset agents aid (.obj (dset (dset
          (dset entry "updated_at" (.num now)) "description" (.str d))
          "system_prompt_key" (.str ("system_prompts/" ++ aid ++ "/current.txt")))))))
          "updated_at" (.num now),
        ?_, ?_, ?_, ?_⟩
      · simp [AgentRegistry.register, hag, hentry, truthy, hie, hd, hspk]
      · rw [dget_dset_ne _ _ _ _ (by decide)]
        exact dget_dset_self ..
      · rw [dget_dset_ne _ _ _ _ (by decide)]
        exact dget_dset_self ..
      · exact dget_dset_self ..
    · refine ⟨dset (dset entry "updated_at" (.num now)) "description" (.str d),
        dset agents aid (.obj (dset (dset entry "updated_at" (.num now))
          "description" (.str d))),
        dset (dset doc "agents" (.obj (dset agents aid (.obj (dset (dset entry
          "updated_at" (.num now)) "description" (.str d)))))) "updated_at"
          (.num now),
        ?_, ?_, ?_, ?_⟩
      · simp [AgentRegistry.register, hag, hentry, truthy, hie, hd, hspk]
      · exact dget_dset_self ..
      · rw [dget_dset_ne _ _ _ _ (by decide)]
        exact dget_dset_self ..
      · exact dget_dset_self ..

/-- A concrete registry entry for agent "a" whose description is "d1". -/
def entryD1 : Jdict :=
  [("agent_id", .str "a"), ("created_at", .num 0), ("updated_at", .num 0),
   ("description", .str "d1"),
   ("system_prompt_key", .str "system_prompts/a/current.txt")]

/-- A concrete registry document holding only `entryD1`. -/
def docD1 : Jdict :=
  [("agents", .obj [("a", .obj entryD1)]), ("created_at", .num 0)]

/-- C5 witness: re-registering "a" with description "d2" and no
`update_if_exists` returns the entry still describing "d1" and saves nothing;
with `update_if_exists=True` the stored description becomes "d2". -/
theorem register_idempotent_witness :
    (AgentRegistry.register docD1 "a" (some "d2") none none false 1
        = some ⟨.obj entryD1, docD1, false⟩
      ∧ dget entryD1 "description" = some (.str "d1"))
    ∧ (∃ e' agents' doc',
        AgentRegistry.register docD1 "a" (some "d2") none none true 1
          = some ⟨.obj e', doc', true⟩
        ∧ dget e' "description" = some (.str "d2")
        ∧ dget doc' "agents" = some (.obj agents')
        ∧ dget agents' "a" = some (.obj e')) :=
  ⟨⟨(register_idempotent docD1 [("a", .obj entryD1)] entryD1 "a" (some "d2")
      none none 1 rfl rfl (List.cons_ne_nil _ _)).1, rfl⟩,
   (register_idempotent docD1 [("a", .obj entryD1)] entryD1 "a" (some "d2")
      none none 1 rfl rfl (List.cons_ne_nil _ _)).2 "d2" (by decide)⟩

/-! ## Prompt management (`src/hub/prompts.py`) -/

/-- Lookup in a string-keyed association map (Python dict / keyed file set). -/
def aget {α : Type} (d : List (String × α)) (k : String) : Option α :=
  match d with
  | [] => none
  | (k', v) :: rest => if k' = k then some v else aget rest k

/-- Store into a string-keyed association map, overwriting in place. -/
def aset {α : Type} (d : List (String × α)) (k : String) (v : α) :
    List (String × α) :=
  match d with
  | [] => [(k, v)]
  | (k', v') :: rest => if k' = k then (k, v) :: rest else (k', v') :: aset rest k v

theorem aget_aset_self {α : Type} (d : List (String × α)) (k : String) (v : α) :
    aget (aset d k v) k = some v := by
  induction d with
  | nil => simp [aget, aset]
  | cons hd tl ih =>
    obtain ⟨k', v'⟩ := hd
    by_cases h : k' = k <;> simp [aget, aset, h, ih]

theorem aget_aset_ne {α : Type} (d : List (String × α)) (k k' : String) (v : α)
    (h : k' ≠ k) : aget (aset d k v) k' = aget d k' := by
  have hkk : ¬(k = k') := fun hh => h hh.symm
  induction d with
  | nil => simp only [aset, aget, if_neg hkk]
  | cons hd tl ih =>
    obtain ⟨k0, v0⟩ := hd
    by_cases h0 : k0 = k
    · subst h0
      simp only [aset, aget, if_pos rfl, if_neg hkk]
    · simp only [aset, aget, if_neg h0]
      by_cases h1 : k0 = k'
      · simp only [aget, if_pos h1]
      · simp only [aget, if_neg h1, ih]

/-- Stand-in for `hashlib.md5(content).hexdigest()` in `_save_to_cache`: no
claim inspects hash values, so the digest is modelled as the content itself. -/
def md5Hex (s : String) : String := s

/-- The sidecar metadata of the local "current" cache (`cache_meta.json`,
`prompts.py` lines 251–260). -/
structure CacheMeta where
  cached_at : Int
  content_hash : String
  deriving DecidableEq, Repr

/-- Metadata written next to each locally stored version (`<version>_meta.json`,
`prompts.py` lines 262–270). -/
structure VersionMeta where
  version : String
  note : Option String
  created_at : Int
  deriving DecidableEq, Repr

/-- An entry of the remote versions manifest (`versions.json`,
`prompts.py` lines 302–337). -/
structure ManifestEntry where
  version : String
  note : Option String
  created_at : Int
  updated_at : Option Int
  deriving DecidableEq, Repr

/-- The remote versions manifest (`versions.json`). -/
structure Manifest where
  versions : List ManifestEntry
  current : String
  deriving DecidableEq, Repr

/-- The state of one agent's prompt storage across the tiers of
`S3PromptManager`: local version files `<version>.txt` keyed by version
string, the local `current.txt` cache file, its `cache_meta.json` sidecar,
the local `<version>_meta.json` files, the remote objects under
`prompts_prefix/<agent_id>/` keyed by object name, and the remote
`versions.json` manifest.  The remote store is modelled as a reliable map: a
fetch returns the stored object or `none` (`NoSuchKey`), so the network-error
except-branches (and `_queue_for_sync`) are never reached in this model. -/
structure PState where
  versions : List (String × String)
  current : Option String
  cacheMeta : Option CacheMeta
  versionMeta : List (String × VersionMeta)
  remote : List (String × String)
  manifest : Option Manifest
  deriving DecidableEq, Repr

/-- `S3PromptManager._get_from_cache` (`prompts.py` lines 235–249): `none`
when the cache file is absent or (unless `ignore_ttl`) the sidecar says the
entry is older than the TTL; a missing sidecar skips the TTL check. -/
def S3PromptManager.get_from_cache (cfg : HubConfig) (st : PState)
    (ignore_ttl : Bool) (now : Int) : Option String :=
  match st.current with
  | none => none
  | some content =>
    if ignore_ttl = false then
      match st.cacheMeta with
      | some meta =>
        if now - meta.cached_at > cfg.prompt_cache_ttl_seconds then none
        else some content
      | none => some content
    else some content

/-- `S3PromptManager._save_to_cache` (`prompts.py` lines 251–260): writes
`current.txt` and its metadata sidecar together. -/
def S3PromptManager.save_to_cache (st : PState) (content : String)
    (now : Int) : PState :=
  { st with current := some content,
            cacheMeta := some ⟨now, md5Hex content⟩ }

/-- `S3PromptManager._update_versions_manifest` (`prompts.py` lines 302–337). -/
def S3PromptManager.update_versions_manifest (st : PState) (version : String)
    (note : Option String) (now : Int) : PState :=
  let m := st.manifest.getD ⟨[], version⟩
  let m1 :=
    if m.versions.any (fun e => e.version = version) then
      { m with current := version,
               versions := m.versions.map (fun e =>
                 if e.version = version then
                   { e with note := note, updated_at := some now }
                 else e) }
    else
      { m with current := version,
               versions := m.versions ++ [⟨version, note, now, none⟩] }
  { st with manifest := some m1 }

/-- `S3PromptManager.set` (`prompts.py` lines 151–194): writes the version
file locally (overwriting), records version metadata, uploads the version
blob to S3 when remote is enabled (plus `current.txt` and the manifest when
`make_current`), then refreshes the local cache when `make_current`. -/
def S3PromptManager.set (cfg : HubConfig) (st : PState)
    (content version : String) (make_current : Bool) (note : Option String)
    (now : Int) : PState :=
  let st1 := { st with
    versions := aset st.versions version content,
    versionMeta := aset st.versionMeta version ⟨version, note, now⟩ }
  let st2 :=
    if cfg.use_s3 then
      let stA := { st1 with remote := aset st1.remote (version ++ ".txt") content }
      if make_current then
        S3PromptManager.update_versions_manifest
          { stA with remote := aset stA.remote "current.txt" content }
          version note now
      else stA
    else st1
  if make_current then S3PromptManager.save_to_cache st2 content now else st2

/-- `S3PromptManager.ensure_exists` (`prompts.py` lines 93–149): if the
version exists in S3 (truthy content) promote it to `current` there when no
truthy `current` exists, and return; else if the version file exists locally,
make it the local current when no cache file exists and sync it up to S3 when
missing there; else create it fresh through `set`. -/
def S3PromptManager.ensure_exists (cfg : HubConfig) (st : PState)
    (content version : String) (now : Int) : String × PState :=
  let s3hit : Option String :=
    if cfg.use_s3 then
      match aget st.remote (version ++ ".txt") with
      | some e => if e ≠ "" then some e else none
      | none => none
    else none
  match s3hit with
  | some existing =>
    let currentTruthy : Bool := match aget st.remote "current.txt" with
      | some c => c != ""
      | none => false
    if currentTruthy then (version, st)
    else (version, { st with remote := aset st.remote "current.txt" existing })
  | none =>
    match aget st.versions version with
    | some local_content =>
      let st1 := if st.current = none then
          S3PromptManager.save_to_cache st local_content now
        else st
      let st2 :=
        if cfg.use_s3 then
          match aget st1.remote (version ++ ".txt") with
          | some e =>
            if e ≠ "" then st1
            else
              S3PromptManager.update_versions_manifest
                { st1 with remote := aset (aset st1.remote (version ++ ".txt")
                    local_content) "current.txt" local_content }
                version none now
          | none =>
            S3PromptManager.update_versions_manifest
              { st1 with remote := aset (aset st1.remote (version ++ ".txt")
                  local_content) "current.txt" local_content }
              version none now
        else st1
      (version, st2)
    | none =>
      (version, S3PromptManager.set cfg st content version true none now)

/-- The `FileNotFoundError` message of `get_current`
(`prompts.py` lines 88–91). -/
def promptNotFound (aid : String) : String :=
  "No system prompt found for agent " ++ aid ++
    ". Use ensure_exists() or set() to create one."

/-- Tail of `get_current` after cache and S3 both miss (`prompts.py` lines
76–91): stale local cache ignoring TTL, then the literal fallback (the branch
that reads a fallback file path is not modelled — no claim passes a path),
else the not-found error. -/
def S3PromptManager.current_fallback (cfg : HubConfig) (aid : String)
    (st : PState) (fallback : Option String) (now : Int) :
    Except String (String × PState) :=
  match S3PromptManager.get_from_cache cfg st true now with
  | some c => .ok (c, st)
  | none =>
    match fallback with
    | some fb => if fb ≠ "" then .ok (fb, st) else .error (promptNotFound aid)
    | none => .error (promptNotFound aid)

/-- `S3PromptManager.get_current` (`prompts.py` lines 45–91): non-expired
cache first (unless `force_refresh`), then a truthy remote `current.txt`
(refreshing the cache), then the `current_fallback` tiers. -/
def S3PromptManager.get_current (cfg : HubConfig) (aid : String) (st : PState)
    (force_refresh : Bool) (fallback : Option String) (now : Int) :
    Except String (String × PState) :=
  match (if force_refresh then none
         else S3PromptManager.get_from_cache cfg st false now) with
  | some cached => .ok (cached, st)
  | none =>
    match (if cfg.use_s3 then aget st.remote "current.txt" else none) with
    | some content =>
      if content ≠ "" then
        .ok (content, S3PromptManager.save_to_cache st content now)
      else S3PromptManager.current_fallback cfg aid st fallback now
    | none => S3PromptManager.current_fallback cfg aid st fallback now

/-- `S3PromptManager.get_version` (`prompts.py` lines 196–211): local version
file first, then a truthy remote copy (cached locally on the way), else a
not-found error. -/
def S3PromptManager.get_version (cfg : HubConfig) (st : PState)
    (version : String) : Except String (String × PState) :=
  match aget st.versions version with
  | some c => .ok (c, st)
  | none =>
    match (if cfg.use_s3 then aget st.remote (version ++ ".txt") else none) with
    | some content =>
      if content ≠ "" then
        .ok (content, { st with versions := aset st.versions version content })
      else .error ("Prompt version " ++ version ++ " not found")
    | none => .error ("Prompt version " ++ version ++ " not found")

/-- `_get_from_cache` either misses or returns exactly the cache file's
content. -/
theorem get_from_cache_eq (cfg : HubConfig) (st : PState) (b : Bool)
    (now : Int) (c : String) (hcur : st.current = some c) :
    S3PromptManager.get_from_cache cfg st b now = none
    ∨ S3PromptManager.get_from_cache cfg st b now = some c := by
  unfold S3PromptManager.get_from_cache
  rw [hcur]
  cases b with
  | true => simp
  | false =>
    cases hm : st.cacheMeta with
    | none => simp
    | some meta =>
      by_cases hexp : now - meta.cached_at > cfg.prompt_cache_ttl_seconds
      · simp [hexp]
      · simp [hexp]

/-- With ignore_ttl, a present cache file is always returned. -/
theorem get_from_cache_ignore_ttl (cfg : HubConfig) (st : PState)
    (now : Int) (c : String) (hcur : st.current = some c) :
    S3PromptManager.get_from_cache cfg st true now = some c := by
  unfold S3PromptManager.get_from_cache
  rw [hcur]
  simp

/-- A cached truthy `current` (with, when remote is enabled, the same content
stored remotely) is what `get_current` returns, whatever the cache age. -/
theorem get_current_returns_cached (cfg : HubConfig) (aid : String)
    (st : PState) (now2 : Int) (c : String)
    (hcur : st.current = some c) (hc : c ≠ "")
    (hrem : cfg.use_s3 = true → aget st.remote "current.txt" = some c) :
    ∃ st2, S3PromptManager.get_current cfg aid st false none now2
      = .ok (c, st2) := by
  rcases get_from_cache_eq cfg st false now2 c hcur with hfresh | hfresh
  · cases hu : cfg.use_s3 with
    | true =>
      refine ⟨S3PromptManager.save_to_cache st c now2, ?_⟩
      simp [S3PromptManager.get_current, hfresh, hu, hrem hu, hc]
    | false =>
      refine ⟨st, ?_⟩
      have hstale := get_from_cache_ignore_ttl cfg st now2 c hcur
      simp [S3PromptManager.get_current, S3PromptManager.current_fallback,
        hfresh, hu, hstale]
  · exact ⟨st, by simp [S3PromptManager.get_current, hfresh]⟩

/-- C6: with remote disabled and no fallback, `get_current()` raises the
not-found error naming the agent exactly when no local "current" cache file
exists; when a cache file exists its content is returned even after the TTL
has expired (the stale copy, not an error). -/
theorem get_current_cache_or_error (cfg : HubConfig) (aid : String)
    (st : PState) (now : Int)
    (hs3 : cfg.use_s3 = false) :
    (st.current = none →
      S3PromptManager.get_current cfg aid st false none now
        = .error (promptNotFound aid))
    ∧ (∀ c, st.current = some c →
        S3PromptManager.get_current cfg aid st false none now = .ok (c, st)) := by
  constructor
  · intro hcur
    simp [S3PromptManager.get_current, S3PromptManager.get_from_cache,
      S3PromptManager.current_fallback, hcur, hs3]
  · intro c hcur
    cases hm : st.cacheMeta with
    | none =>
      simp [S3PromptManager.get_current, S3PromptManager.get_from_cache,
        S3PromptManager.current_fallback, hcur, hs3, hm]
    | some meta =>
      by_cases hexp : now - meta.cached_at > cfg.prompt_cache_ttl_seconds
      · simp [S3PromptManager.get_current, S3PromptManager.get_from_cache,
          S3PromptManager.current_fallback, hcur, hs3, hm, hexp]
      · simp [S3PromptManager.get_current, S3PromptManager.get_from_cache,
          S3PromptManager.current_fallback, hcur, hs3, hm, hexp]

/-- An empty prompt state: nothing stored in any tier. -/
def pEmpty : PState := ⟨[], none, none, [], [], none⟩

/-- A prompt state whose only content is "X" cached as current at time 0. -/
def pStale : PState := ⟨[], some "X", some ⟨0, md5Hex "X"⟩, [], [], none⟩

/-- C6 witness: a never-initialized agent raises not-found; the "X" cached at
t=0 is still returned at t=999999, far past the 3600-second TTL. -/
theorem get_current_cache_or_error_witness :
    S3PromptManager.get_current cfgLocal "a" pEmpty false none 999999
      = .error (promptNotFound "a")
    ∧ S3PromptManager.get_current cfgLocal "a" pStale false none 999999
      = .ok ("X", pStale) :=
  ⟨(get_current_cache_or_error cfgLocal "a" pEmpty 999999 rfl).1 rfl,
   (get_current_cache_or_error cfgLocal "a" pStale 999999 rfl).2 "X" rfl⟩

/-- What `set(make_current=True)` leaves behind: the cache holds the content,
the version file holds it, and (with remote enabled) so does the remote
`current.txt`. -/
theorem set_make_current_state (cfg : HubConfig) (st : PState)
    (content version : String) (note : Option String) (now : Int) :
    (S3PromptManager.set cfg st content version true note now).current
        = some content
    ∧ (S3PromptManager.set cfg st content version true note now).cacheMeta
        = some ⟨now, md5Hex content⟩
    ∧ aget (S3PromptManager.set cfg st content version true note now).versions
        version = some content
    ∧ (cfg.use_s3 = true →
        aget (S3PromptManager.set cfg st content version true note now).remote
          "current.txt" = some content) := by
  cases hu : cfg.use_s3 with
  | false =>
    simp [S3PromptManager.set, S3PromptManager.save_to_cache, hu,
      aget_aset_self]
  | true =>
    simp [S3PromptManager.set, S3PromptManager.save_to_cache,
      S3PromptManager.update_versions_manifest, hu, aget_aset_self]

/-- C7: prompt round-trip from nothing.  When no version exists for the agent
in any tier, `ensure_exists(content="X", version="v1")` stores "X";
`get_current()` afterwards returns exactly "X", and `get_version("v1")` also
returns exactly "X". -/
theorem prompt_round_trip (cfg : HubConfig) (st : PState) (now now2 : Int)
    (hver : aget st.versions "v1" = none)
    (hrem : aget st.remote "v1.txt" = none)
    (hcur : st.current = none)
    (hremcur : aget st.remote "current.txt" = none) :
    ∃ st', S3PromptManager.ensure_exists cfg st "X" "v1" now = ("v1", st')
      ∧ (∃ st2, S3PromptManager.get_current cfg "a" st' false none now2
          = .ok ("X", st2))
      ∧ (∃ st3, S3PromptManager.get_version cfg st' "v1" = .ok ("X", st3)) := by
  have hee : S3PromptManager.ensure_exists cfg st "X" "v1" now
      = ("v1", S3PromptManager.set cfg st "X" "v1" true none now) := by
    cases hu : cfg.use_s3 with
    | false => simp [S3PromptManager.ensure_exists, hu, hver]
    | true => simp [S3PromptManager.ensure_exists, hu, hver, hrem]
  obtain ⟨hc1, hc2, hc3, hc4⟩ := set_make_current_state cfg st "X" "v1" none now
  refine ⟨_, hee, ?_, ?_⟩
  · exact get_current_returns_cached cfg "a" _ now2 "X" hc1 (by decide) hc4
  · refine ⟨S3PromptManager.set cfg st "X" "v1" true none now, ?_⟩
    unfold S3PromptManager.get_version
    rw [hc3]

/-- C7 witness: the round-trip on the empty state with remote enabled. -/
theorem prompt_round_trip_witness :
    ∃ st', S3PromptManager.ensure_exists cfgS3 pEmpty "X" "v1" 1 = ("v1", st')
      ∧ (∃ st2, S3PromptManager.get_current cfgS3 "a" st' false none 2
          = .ok ("X", st2))
      ∧ (∃ st3, S3PromptManager.get_version cfgS3 st' "v1" = .ok ("X", st3)) :=
  prompt_round_trip cfgS3 pEmpty 1 2 rfl rfl rfl rfl

/-- C9: `ensure_exists` never overwrites an existing version's content: when
the local version file exists, the call returns that version string and the
stored version file's content is unchanged, even when the offered content
differs. -/
theorem ensure_exists_preserves_version (cfg : HubConfig) (st : PState)
    (content version : String) (now : Int) (stored : String)
    (hver : aget st.versions version = some stored) :
    (S3PromptManager.ensure_exists cfg st content version now).1 = version
    ∧ aget (S3PromptManager.ensure_exists cfg st content version now).2.versions
        version = some stored := by
  cases hu : cfg.use_s3 with
  | false =>
    cases hc : st.current with
    | none =>
      simp [S3PromptManager.ensure_exists, S3PromptManager.save_to_cache,
        hu, hver, hc]
    | some c =>
      simp [S3PromptManager.ensure_exists, hu, hver, hc]
  | true =>
    cases hr : aget st.remote (version ++ ".txt") with
    | some e =>
      by_cases he : e = ""
      · subst he
        cases hc : st.current with
        | none =>
          simp [S3PromptManager.ensure_exists, S3PromptManager.save_to_cache,
            S3PromptManager.update_versions_manifest, hu, hver, hr, hc]
        | some c =>
          simp [S3PromptManager.ensure_exists,
            S3PromptManager.update_versions_manifest, hu, hver, hr, hc]
      · cases hcr : aget st.remote "current.txt" with
        | none =>
          simp [S3PromptManager.ensure_exists, hu, hr, he, hcr, hver]
        | some c0 =>
          by_cases hc0 : c0 = ""
          · subst hc0
            simp [S3PromptManager.ensure_exists, hu, hr, he, hcr, hver]
          · simp [S3PromptManager.ensure_exists, hu, hr, he, hcr, hc0, hver]
    | none =>
      cases hc : st.current with
      | none =>
        simp [S3PromptManager.ensure_exists, S3PromptManager.save_to_cache,
          S3PromptManager.update_versions_manifest, hu, hver, hr, hc]
      | some c =>
        simp [S3PromptManager.ensure_exists,
          S3PromptManager.update_versions_manifest, hu, hver, hr, hc]

/-- A prompt state whose only content is the local version file v1 = "old". -/
def pWithV1 : PState := ⟨[("v1", "old")], none, none, [], [], none⟩

/-- C9 witness: `ensure_exists("new", "v1")` on a state storing v1 = "old"
returns "v1" and leaves the stored content "old". -/
theorem ensure_exists_preserves_version_witness :
    (S3PromptManager.ensure_exists cfgLocal pWithV1 "new" "v1" 5).1 = "v1"
    ∧ aget (S3PromptManager.ensure_exists cfgLocal pWithV1 "new" "v1" 5).2.versions
        "v1" = some "old" :=
  ensure_exists_preserves_version cfgLocal pWithV1 "new" "v1" 5 "old" rfl
